import Mathlib

/-!
Verification development for the Rust PHP extension `llm-php-ext`.

The file shallowly embeds the extension's value-marshalling layer
(`src/convert.rs`, `src/tool_builder.rs`), the message model
(`src/message.rs`), the error mapper (`src/error.rs`) and the three
request builders (`src/llm_class.rs`, `src/structured_builder.rs`,
`src/tool_builder.rs`) into Lean, and proves properties about the
embedded definitions.

Modelling conventions:
- PHP zvals become the inductive `PhpVal`; a `ZendHashTable` is its list
  of `(ArrayKey × PhpVal)` entries in storage order, with the update-or-
  append semantics of `zend_hash_update` (`assocInsert`).  String keys are
  stored as written (`zend_hash_str_update` performs no numeric-string
  coercion).
- `serde_json::Value` becomes the inductive `JsonValue`.  A
  `serde_json::Number` is either an integer (`.int`, `as_i64` succeeds
  exactly on the i64 range) or a float (`.float`).  Finite doubles are
  modelled by the abstract type `FVal`; `serde_json::Number::from_f64`
  returns `none` exactly on non-finite values.  JSON objects are ordered
  association lists built by update-or-append insertion.
- Fallible Rust code returns `Except`.  The blocking tokio runtime is not
  modelled: each provider call is a plain function call, which the spec
  notes is behaviourally equivalent for the caller.
- External collaborators (`serde_json` string parsing/rendering, the
  octolib provider factory and providers) are parameters (`Serde`,
  `Octo`, `Provider`); octolib's `MessageBuilder` is modelled from the
  spec where marked.
-/

/-- Abstract model of an f64 value: an identifying code plus a finiteness
flag.  Arithmetic on doubles is never performed by the embedded code; the
only observations are equality and finiteness. -/
structure FVal where
  code : Int
  finite : Bool
deriving DecidableEq, Repr

/-- A key of a PHP hash table: integer keys and string keys.  The
ext-php-rs variants `Str` and `String` are both string keys and are
treated identically by all embedded code, so they are merged. -/
inductive ArrayKey where
  | long (i : Int)
  | str (s : String)
deriving DecidableEq, Repr

/-- Whether an ext-php-rs iteration key matches `ArrayKey::Str(_) |
ArrayKey::String(_)` (the test of the `is_object` loop in
`zval_to_json_value`). -/
def ArrayKey.isStr : ArrayKey → Bool
  | .long _ => false
  | .str _ => true

/-- The key via `i.to_string()` for long keys (object branch of
`zval_to_json_value`); string keys are used as they are. -/
def ArrayKey.asString : ArrayKey → String
  | .long i => toString i
  | .str s => s

/-- `serde_json::Value`.  Numbers are split into the integer case (where
`as_i64` succeeds) and the float case; objects are ordered string-keyed
association lists. -/
inductive JsonValue where
  | null
  | bool (b : Bool)
  | int (i : Int)
  | float (f : FVal)
  | str (s : String)
  | arr (xs : List JsonValue)
  | obj (kvs : List (String × JsonValue))

/-- The keys of a JSON object; `[]` for every other value. -/
def JsonValue.objKeys : JsonValue → List String
  | .obj kvs => kvs.map Prod.fst
  | _ => []

/-- Whether the value is a JSON object. -/
def JsonValue.isObj : JsonValue → Bool
  | .obj _ => true
  | _ => false

/-- `i64::MIN` as an integer. -/
def i64Min : Int := -(2 ^ 63)

/-- `i64::MAX` as an integer. -/
def i64Max : Int := 2 ^ 63 - 1

/-- Update-or-append insertion into an association list: the shared
semantics of `zend_hash_update` (PHP hash tables keep the position of an
existing key) and of map insertion for JSON objects. -/
def assocInsert {κ α : Type} [DecidableEq κ] : List (κ × α) → κ → α → List (κ × α)
  | [], k, v => [(k, v)]
  | (k', v') :: t, k, v => if k' = k then (k, v) :: t else (k', v') :: assocInsert t k v

/-- Folding `assocInsert` over a list of pairs, in order. -/
def assocInsertMany {κ α : Type} [DecidableEq κ] (init : List (κ × α))
    (items : List (κ × α)) : List (κ × α) :=
  items.foldl (fun acc p => assocInsert acc p.1 p.2) init

mutual
/-- One conversation turn, `struct Message` of `src/message.rs`. -/
inductive Message where
  | mk (role : String) (content : String) (tool_call_id : Option String)
      (id : Option String) (tool_calls : Option String)

/-- A PHP zval.  Besides the scalar and array cases the embedded code
observes zvals holding `Message` and `MessageCollection` class objects
(`convert.rs`), and builds zvals holding `ToolCall` and `Usage` class
objects (`to_array` methods); other object kinds are never produced or
inspected, so they are not represented. -/
inductive PhpVal where
  | null
  | bool (b : Bool)
  | long (i : Int)
  | double (f : FVal)
  | str (s : String)
  | array (entries : List (ArrayKey × PhpVal))
  | msgObj (m : Message)
  | collObj (msgs : List Message)
  | toolCallObj (id : String) (name : String) (arguments_json : String)
  | usageObj (prompt_tokens : Int) (output_tokens : Int) (total_tokens : Int)
end

/-- The role of a `Message`. -/
def Message.role : Message → String
  | .mk r _ _ _ _ => r

/-- The content of a `Message`. -/
def Message.content : Message → String
  | .mk _ c _ _ _ => c

/-- The `tool_call_id` of a `Message`. -/
def Message.tool_call_id : Message → Option String
  | .mk _ _ t _ _ => t

/-- The `id` of a `Message`. -/
def Message.id : Message → Option String
  | .mk _ _ _ i _ => i

/-- The serialized `tool_calls` of a `Message`. -/
def Message.tool_calls : Message → Option String
  | .mk _ _ _ _ t => t

/-- `Zval::string()` / `Zval::str()`: `some` exactly for string zvals. -/
def PhpVal.strVal : PhpVal → Option String
  | .str s => some s
  | _ => none

/-- `ZendHashTable::get` with a key: the value stored under the key. -/
def htGet (entries : List (ArrayKey × PhpVal)) (k : ArrayKey) : Option PhpVal :=
  (entries.find? (fun p => p.1 = k)).map Prod.snd

/-- The keys of a hash table in storage order. -/
def htKeys (entries : List (ArrayKey × PhpVal)) : List ArrayKey :=
  entries.map Prod.fst

/-- The `is_object` loop of `zval_to_json_value` (`src/tool_builder.rs`):
true when some key of the array is a string key. -/
def hasStringKey (entries : List (ArrayKey × PhpVal)) : Bool :=
  entries.any fun p => p.1.isStr

mutual
/-- `zval_to_json_value` (`src/tool_builder.rs` lines 14-61).  The source
tests `string()`, `long()`, `double()`, `bool()`, `array()` in that
order; on the disjoint `PhpVal` constructors the chain is this match.  A
double converts through `serde_json::Number::from_f64`, which fails
exactly on non-finite values, giving `Null`.  Object and `Message` /
collection zvals fall through every accessor to `Null`. -/
def zvalToJsonValue : PhpVal → JsonValue
  | .str s => .str s
  | .long i => .int i
  | .double f => if f.finite then .float f else .null
  | .bool b => .bool b
  | .array entries =>
    if hasStringKey entries then
      .obj (assocInsertMany [] ((zvalPairsToJson entries).map fun p => (p.1.asString, p.2)))
    else
      .arr ((zvalPairsToJson entries).map Prod.snd)
  | .null => .null
  | .msgObj _ => .null
  | .collObj _ => .null
  | .toolCallObj _ _ _ => .null
  | .usageObj _ _ _ => .null

/-- The per-entry recursion of `zval_to_json_value` over a hash table's
entries, keeping each key. -/
def zvalPairsToJson : List (ArrayKey × PhpVal) → List (ArrayKey × JsonValue)
  | [] => []
  | (k, v) :: t => (k, zvalToJsonValue v) :: zvalPairsToJson t
end

mutual
/-- `json_value_to_php` (`src/convert.rs` lines 43-82).  Integers out of
the i64 range are the `as_f64` fallback (a lossy cast, modelled by
wrapping the integer as a finite `FVal` code); arrays insert under the
running index, objects insert under the string key. -/
def jsonValueToPhp : JsonValue → PhpVal
  | .null => .null
  | .bool b => .bool b
  | .int i => if i64Min ≤ i ∧ i ≤ i64Max then .long i else .double ⟨i, true⟩
  | .float f => .double f
  | .str s => .str s
  | .arr xs =>
    .array (assocInsertMany []
      (((jsonListToPhp xs).enum).map fun p => (ArrayKey.long p.1, p.2)))
  | .obj kvs =>
    .array (assocInsertMany []
      ((jsonPairsToPhp kvs).map fun p => (ArrayKey.str p.1, p.2)))

/-- The element recursion of `json_value_to_php` for arrays. -/
def jsonListToPhp : List JsonValue → List PhpVal
  | [] => []
  | x :: t => jsonValueToPhp x :: jsonListToPhp t

/-- The member recursion of `json_value_to_php` for objects. -/
def jsonPairsToPhp : List (String × JsonValue) → List (String × PhpVal)
  | [] => []
  | (k, v) :: t => (k, jsonValueToPhp v) :: jsonPairsToPhp t
end

/-- Pairwise-distinct keys of an association list, as an executable
check. -/
def nodupKeysB {α : Type} : List (String × α) → Bool
  | [] => true
  | (k, _) :: t => (!(t.map Prod.fst).contains k) && nodupKeysB t

mutual
/-- The claim's hypotheses on a `DynamicValue`, executable: every integer
is in the host's safe (i64) range, every float is finite, and every
object is a genuine mapping (pairwise-distinct keys).  Cycles are not
representable in the inductive type, and every value of it is finite. -/
def JsonValue.safeB : JsonValue → Bool
  | .null => true
  | .bool _ => true
  | .str _ => true
  | .int i => decide (i64Min ≤ i ∧ i ≤ i64Max)
  | .float f => f.finite
  | .arr xs => JsonValue.safeListB xs
  | .obj kvs => nodupKeysB kvs && JsonValue.safePairsB kvs

/-- `safeB` over the elements of an array. -/
def JsonValue.safeListB : List JsonValue → Bool
  | [] => true
  | x :: t => JsonValue.safeB x && JsonValue.safeListB t

/-- `safeB` over the members of an object. -/
def JsonValue.safePairsB : List (String × JsonValue) → Bool
  | [] => true
  | p :: t => JsonValue.safeB p.2 && JsonValue.safePairsB t
end

mutual
/-- Every object node of the value is non-empty (the condition the
round-trip additionally needs: an empty object decodes to an empty PHP
array, which re-encodes as an empty JSON array). -/
def JsonValue.objsNonemptyB : JsonValue → Bool
  | .null => true
  | .bool _ => true
  | .str _ => true
  | .int _ => true
  | .float _ => true
  | .arr xs => JsonValue.objsNonemptyListB xs
  | .obj kvs => (!kvs.isEmpty) && JsonValue.objsNonemptyPairsB kvs

/-- `objsNonemptyB` over the elements of an array. -/
def JsonValue.objsNonemptyListB : List JsonValue → Bool
  | [] => true
  | x :: t => JsonValue.objsNonemptyB x && JsonValue.objsNonemptyListB t

/-- `objsNonemptyB` over the members of an object. -/
def JsonValue.objsNonemptyPairsB : List (String × JsonValue) → Bool
  | [] => true
  | p :: t => JsonValue.objsNonemptyB p.2 && JsonValue.objsNonemptyPairsB t
end

/-- Modelled from the spec (9. DESIGN NOTES): the container-kind rule the
spec states, "a container is an object if any key is a non-sequential-
integer string, else an array" — each key, read as a string, must be the
decimal index of its position for the container to be an array.  Stated
for comparison with the classification the code actually performs. -/
def specContainerIsObject (entries : List (ArrayKey × PhpVal)) : Bool :=
  !(entries.enum.all fun p => p.2.1.asString = toString p.1)

/-- The PHP exception classes declared in `src/error.rs`. -/
inductive ExcKind where
  | llm
  | connection
  | validation
  | structuredOutput
  | toolCall
deriving DecidableEq, Repr

/-- A thrown `PhpException`: its class and its message. -/
structure PhpErr where
  cls : ExcKind
  msg : String
deriving DecidableEq, Repr

/-- Whether an `Except` computation succeeded. -/
def okB {ε α : Type} : Except ε α → Bool
  | .ok _ => true
  | .error _ => false

/-- `octolib::errors::ProviderError`, as `src/error.rs` matches it: the
four named variants plus the catch-all (whose debug rendering is carried
as text). -/
inductive ProviderError where
  | network (msg : String)
  | api (provider : String) (status : Int) (message : String)
  | modelNotSupported (model : String) (provider : String)
  | timeout (provider : String)
  | otherDbg (dbgText : String)
deriving DecidableEq, Repr

/-- An octolib failure as the builders receive it (an `anyhow::Error`):
either one of the three downcastable error types, with debug renderings
carried as text where `error.rs` formats them with `{:?}`, or a generic
error with its display text. -/
inductive OctoErr where
  | provider (e : ProviderError)
  | structured (dbgText : String)
  | toolCall (dbgText : String)
  | generic (msg : String)
deriving DecidableEq, Repr

/-- `IntoPhpException for &ProviderError` (`src/error.rs` lines 12-44). -/
def ProviderError.intoPhpException : ProviderError → PhpErr
  | .network msg => ⟨.connection, msg⟩
  | .api provider status message =>
    ⟨.connection, "API Error [" ++ provider ++ "] (" ++ toString status ++ "): " ++ message⟩
  | .modelNotSupported model provider =>
    ⟨.validation, "Model '" ++ model ++ "' not supported by provider '" ++ provider ++ "'"⟩
  | .timeout provider => ⟨.connection, "Request timeout for provider: " ++ provider⟩
  | .otherDbg dbg => ⟨.llm, "Provider error: " ++ dbg⟩

/-- `IntoPhpException for anyhow::Error` (`src/error.rs` lines 66-82),
with the per-type impls inlined for the downcast cases. -/
def OctoErr.intoPhpException : OctoErr → PhpErr
  | .provider e => e.intoPhpException
  | .structured dbg => ⟨.structuredOutput, "Structured output error: " ++ dbg⟩
  | .toolCall dbg => ⟨.toolCall, "Tool call error: " ++ dbg⟩
  | .generic msg => ⟨.llm, msg⟩

/-- The `serde_json` string layer as the embedded code uses it:
`from_str::<Value>` (the error rendered as text) and `to_string`
(which never fails on a `Value`). -/
structure Serde where
  parse : String → Except String JsonValue
  render : JsonValue → String

/-- The role constructors octolib's `MessageBuilder` exposes. -/
inductive OctoRole where
  | user
  | assistant
  | system
  | tool
deriving DecidableEq, Repr

/-- `octolib::llm::Message` as the extension populates it: role, content,
optional message id, the tool linkage of tool-result messages (the
builder's third argument is a name, passed as the empty string), and the
`tool_calls` JSON set directly on the struct for assistant messages. -/
structure OctoMessage where
  role : OctoRole
  content : String
  id : Option String
  tool_call_id : Option String
  name : String
  tool_calls : Option JsonValue

/-- Modelled from the spec (4.2 Message Model): octolib's
`MessageBuilder::user(content).build()` — "user/assistant/system(content)
… are infallible given valid strings". -/
def MessageBuilder.buildUser (content : String) : Except String OctoMessage :=
  .ok ⟨.user, content, none, none, "", none⟩

/-- Modelled from the spec (4.2 Message Model): `MessageBuilder::assistant`
with an optionally attached id, infallible. -/
def MessageBuilder.buildAssistant (content : String) (id : Option String) :
    Except String OctoMessage :=
  .ok ⟨.assistant, content, id, none, "", none⟩

/-- Modelled from the spec (4.2 Message Model): `MessageBuilder::system`,
infallible. -/
def MessageBuilder.buildSystem (content : String) : Except String OctoMessage :=
  .ok ⟨.system, content, none, none, "", none⟩

/-- Modelled from the spec (8. TESTABLE PROPERTIES): octolib's
`MessageBuilder::tool(content, tool_call_id, name).build()`, which fails
exactly when the tool_call_id is empty — the spec pins
"`Message::tool(id, content).to_canonical()` succeeds iff `id` is
non-empty", and the extension's own code passes every `Some` id through,
so the emptiness check lives in octolib. -/
def MessageBuilder.buildTool (content : String) (tool_call_id : String)
    (name : String) : Except String OctoMessage :=
  if tool_call_id = "" then .error "tool_call_id must not be empty"
  else .ok ⟨.tool, content, none, some tool_call_id, name, none⟩

/-- `Message::user` (`src/message.rs`); the Rust constructor always
returns `Ok`. -/
def Message.user (content : String) : Message :=
  .mk "user" content none none none

/-- `Message::assistant` (`src/message.rs`). -/
def Message.assistant (content : String) : Message :=
  .mk "assistant" content none none none

/-- `Message::system` (`src/message.rs`). -/
def Message.system (content : String) : Message :=
  .mk "system" content none none none

/-- `Message::tool` (`src/message.rs` lines 54-62): stores the given id,
whatever it is, as `Some`. -/
def Message.tool (tool_call_id : String) (result : String) : Message :=
  .mk "tool" result (some tool_call_id) none none

/-- `Message::from_array` (`src/message.rs` lines 100-140): `role` and
`content` must be present as strings, each checked with
`get(..).and_then(|v| v.str())`; the remaining fields are optional
strings. -/
def Message.from_array (data : List (ArrayKey × PhpVal)) : Except PhpErr Message :=
  match (htGet data (.str "role")).bind PhpVal.strVal with
  | none => .error ⟨.validation, "Message must have 'role' field"⟩
  | some role =>
    match (htGet data (.str "content")).bind PhpVal.strVal with
    | none => .error ⟨.validation, "Message must have 'content' field"⟩
    | some content =>
      .ok (.mk role content
        ((htGet data (.str "tool_call_id")).bind PhpVal.strVal)
        ((htGet data (.str "id")).bind PhpVal.strVal)
        ((htGet data (.str "tool_calls")).bind PhpVal.strVal))

/-- `Message::to_octo` (`src/message.rs` lines 196-254): dispatch on the
role string; assistant messages attach `tool_calls` when the stored JSON
parses (a parse failure is silently dropped by the `if let Ok`); tool
messages require a present `tool_call_id` and then build through
octolib. -/
def Message.to_octo (m : Message) (sd : Serde) : Except PhpErr OctoMessage :=
  match m.role with
  | "user" =>
    match MessageBuilder.buildUser m.content with
    | .ok om => .ok om
    | .error e => .error ⟨.validation, "Failed to build message: " ++ e⟩
  | "assistant" =>
    match MessageBuilder.buildAssistant m.content m.id with
    | .error e => .error ⟨.validation, "Failed to build message: " ++ e⟩
    | .ok om =>
      match m.tool_calls with
      | some calls_json =>
        match sd.parse calls_json with
        | .ok v => .ok { om with tool_calls := some v }
        | .error _ => .ok om
      | none => .ok om
  | "system" =>
    match MessageBuilder.buildSystem m.content with
    | .ok om => .ok om
    | .error e => .error ⟨.validation, "Failed to build message: " ++ e⟩
  | "tool" =>
    match m.tool_call_id with
    | some id =>
      match MessageBuilder.buildTool m.content id "" with
      | .ok om => .ok om
      | .error e => .error ⟨.validation, "Failed to build message: " ++ e⟩
    | none => .error ⟨.validation, "Tool message must have tool_call_id"⟩
  | _ => .error ⟨.validation, "Invalid message role: " ++ m.role⟩

/-- `Message::to_array` (`src/message.rs` lines 162-176): `role` and
`content` always; each optional field only when it is `Some`. -/
def Message.to_array (m : Message) : List (ArrayKey × PhpVal) :=
  let a := assocInsert [] (ArrayKey.str "role") (PhpVal.str m.role)
  let a := assocInsert a (ArrayKey.str "content") (PhpVal.str m.content)
  let a := match m.tool_call_id with
    | some tool_id => assocInsert a (ArrayKey.str "tool_call_id") (PhpVal.str tool_id)
    | none => a
  let a := match m.id with
    | some msg_id => assocInsert a (ArrayKey.str "id") (PhpVal.str msg_id)
    | none => a
  match m.tool_calls with
  | some calls => assocInsert a (ArrayKey.str "tool_calls") (PhpVal.str calls)
  | none => a

/-- An optional string as the `json!` macro serializes it: `null` when
absent. -/
def optStrJson : Option String → JsonValue
  | none => .null
  | some s => .str s

/-- The JSON value `Message::to_json` (`src/message.rs` lines 177-191)
serializes: the `json!` literal with all five keys, absent options as
explicit null.  The final `serde_json::to_string` renders this value. -/
def Message.to_json_value (m : Message) : JsonValue :=
  .obj [("role", .str m.role), ("content", .str m.content),
    ("tool_call_id", optStrJson m.tool_call_id), ("id", optStrJson m.id),
    ("tool_calls", optStrJson m.tool_calls)]

/-- The entry loop of `MessageCollection::__construct` (`src/message.rs`
lines 266-280): array entries are parsed with `Message::from_array`, the
first failure aborting; non-array entries are skipped. -/
def collectMessages : List (ArrayKey × PhpVal) → Except PhpErr (List Message)
  | [] => .ok []
  | (_, v) :: t =>
    match v with
    | .array a =>
      match Message.from_array a with
      | .error e => .error e
      | .ok m =>
        match collectMessages t with
        | .error e => .error e
        | .ok rest => .ok (m :: rest)
    | _ => collectMessages t

/-- `MessageCollection::__construct` (`src/message.rs` lines 266-280). -/
def MessageCollection.construct (messages : Option (List (ArrayKey × PhpVal))) :
    Except PhpErr (List Message) :=
  match messages with
  | none => .ok []
  | some arr => collectMessages arr

/-- `MessageCollection::to_octo` (`src/message.rs` lines 397-399). -/
def MessageCollection.to_octo (msgs : List Message) (sd : Serde) :
    Except PhpErr (List OctoMessage) :=
  msgs.mapM (fun m => m.to_octo sd)

/-- The entry loop of `php_to_messages` over a PHP array
(`src/convert.rs` lines 17-32): `Message` objects convert directly,
array entries go through `Message::from_array`, anything else is
skipped. -/
def phpMsgEntries (sd : Serde) : List (ArrayKey × PhpVal) → Except PhpErr (List OctoMessage)
  | [] => .ok []
  | (_, v) :: t =>
    match v with
    | .msgObj m =>
      match m.to_octo sd with
      | .error e => .error e
      | .ok om =>
        match phpMsgEntries sd t with
        | .error e => .error e
        | .ok rest => .ok (om :: rest)
    | .array a =>
      match Message.from_array a with
      | .error e => .error e
      | .ok m =>
        match m.to_octo sd with
        | .error e => .error e
        | .ok om =>
          match phpMsgEntries sd t with
          | .error e => .error e
          | .ok rest => .ok (om :: rest)
    | _ => phpMsgEntries sd t

/-- `php_to_messages` (`src/convert.rs` lines 10-40): a
`MessageCollection` converts via its `to_octo`, an array entry-wise,
anything else is a validation error. -/
def phpToMessages (sd : Serde) : PhpVal → Except PhpErr (List OctoMessage)
  | .collObj msgs => MessageCollection.to_octo msgs sd
  | .array entries => phpMsgEntries sd entries
  | _ => .error ⟨.validation, "Messages must be an array or MessageCollection"⟩

/-- `octolib::llm::TokenUsage` as the extension populates and reads
it. -/
structure TokenUsage where
  prompt_tokens : Nat
  output_tokens : Nat
  reasoning_tokens : Nat
  total_tokens : Nat
  cached_tokens : Nat
  cost : Option FVal
  request_time_ms : Option Nat
deriving DecidableEq, Repr

/-- The all-zero `TokenUsage` the builders substitute for a missing usage
record. -/
def zeroTokenUsage : TokenUsage := ⟨0, 0, 0, 0, 0, none, none⟩

/-- `struct Usage` (`src/llm_class.rs` lines 270-285). -/
structure Usage where
  prompt_tokens : Int
  output_tokens : Int
  total_tokens : Int
deriving DecidableEq, Repr

/-- `Usage::from_octo` (`src/llm_class.rs` lines 278-285): the three
exposed counters, cast to i64. -/
def Usage.from_octo (u : TokenUsage) : Usage :=
  ⟨(u.prompt_tokens : Int), (u.output_tokens : Int), (u.total_tokens : Int)⟩

/-- `Usage::to_array` (`src/llm_class.rs` lines 301-307). -/
def Usage.to_array (u : Usage) : List (ArrayKey × PhpVal) :=
  let a := assocInsert [] (ArrayKey.str "prompt_tokens") (PhpVal.long u.prompt_tokens)
  let a := assocInsert a (ArrayKey.str "output_tokens") (PhpVal.long u.output_tokens)
  assocInsert a (ArrayKey.str "total_tokens") (PhpVal.long u.total_tokens)

/-- The JSON value of the usage triple as the `to_json` methods embed
it. -/
def Usage.to_json_value (u : Usage) : JsonValue :=
  .obj [("prompt_tokens", .int u.prompt_tokens), ("output_tokens", .int u.output_tokens),
    ("total_tokens", .int u.total_tokens)]

/-- `octolib::llm::FunctionDefinition` as `Tool::to_octo` builds it
(`cache_control` always `None`, kept as a unit option). -/
structure FunctionDefinition where
  name : String
  description : String
  parameters : JsonValue
  cache_control : Option Unit

/-- `octolib`'s structured-output request: a schema-constrained request
or the generic JSON one. -/
inductive StructuredReq where
  | jsonSchema (schema : JsonValue)
  | json

/-- `octolib::llm::ChatCompletionParams` as the builders assemble it:
`new` takes messages, model, temperature, top_p, a fixed sampling
constant (50 in every builder), and max_tokens;
`with_structured_output` and `with_tools` fill the two extras. -/
structure ChatParams where
  messages : List OctoMessage
  model : String
  temperature : FVal
  top_p : FVal
  sampling_const : Int
  max_tokens : Int
  structured : Option StructuredReq
  tools : Option (List FunctionDefinition)

/-- `ChatCompletionParams::new`. -/
def ChatParams.new (messages : List OctoMessage) (model : String) (temperature : FVal)
    (top_p : FVal) (sampling_const : Int) (max_tokens : Int) : ChatParams :=
  ⟨messages, model, temperature, top_p, sampling_const, max_tokens, none, none⟩

/-- `ChatCompletionParams::with_structured_output`. -/
def ChatParams.with_structured_output (p : ChatParams) (req : StructuredReq) : ChatParams :=
  { p with structured := some req }

/-- `ChatCompletionParams::with_tools`. -/
def ChatParams.with_tools (p : ChatParams) (ts : List FunctionDefinition) : ChatParams :=
  { p with tools := some ts }

/-- A tool call as the provider returns it. -/
structure OctoToolCall where
  id : String
  name : String
  arguments : JsonValue

/-- The provider's completion result as the builders read it:
`response.content`, `response.finish_reason`, `response.structured_output`,
`response.tool_calls`, `response.response_id` and
`response.exchange.usage` (the exchange is flattened to the one field the
extension reads). -/
structure ChatResponse where
  content : String
  finish_reason : Option String
  structured_output : Option JsonValue
  tool_calls : Option (List OctoToolCall)
  response_id : Option String
  exchange_usage : Option TokenUsage

/-- A provider handle: `supports_structured_output` and
`chat_completion`. -/
structure Provider where
  supports_structured_output : String → Bool
  chat_completion : ChatParams → Except OctoErr ChatResponse

/-- `octolib::llm::ProviderFactory`:
`get_provider_for_model(model) -> (provider, canonical_model)`. -/
structure Octo where
  get_provider_for_model : String → Except OctoErr (Provider × String)

/-- One observable call into the provider layer, recorded by the
`completeT` embeddings so that non-invocation is statable. -/
inductive CallEv where
  | resolve (model : String)
  | chat (params : ChatParams)

/-- `struct Response` (`src/llm_class.rs` lines 196-201). -/
structure Response where
  content : String
  usage : Usage
  model : String
  finish_reason : String

/-- `Response::new` (`src/llm_class.rs` lines 205-218). -/
def Response.new (content : String) (usage : TokenUsage) (model : String)
    (finish_reason : String) : Response :=
  ⟨content, Usage.from_octo usage, model, finish_reason⟩

/-- `Response::get_usage`. -/
def Response.get_usage (r : Response) : Usage := r.usage

/-- `Response::to_array` (`src/llm_class.rs` lines 238-245): all four
keys, usage as its own field map. -/
def Response.to_array (r : Response) : List (ArrayKey × PhpVal) :=
  let a := assocInsert [] (ArrayKey.str "content") (PhpVal.str r.content)
  let a := assocInsert a (ArrayKey.str "usage") (PhpVal.array r.usage.to_array)
  let a := assocInsert a (ArrayKey.str "model") (PhpVal.str r.model)
  assocInsert a (ArrayKey.str "finish_reason") (PhpVal.str r.finish_reason)

/-- The JSON value `Response::to_json` (`src/llm_class.rs` lines 247-264)
renders. -/
def Response.to_json_value (r : Response) : JsonValue :=
  .obj [("content", .str r.content), ("usage", r.usage.to_json_value),
    ("model", .str r.model), ("finish_reason", .str r.finish_reason)]

/-- `struct ToolCall` (`src/tool_builder.rs` lines 226-230): arguments
kept as a JSON string. -/
structure ToolCall where
  id : String
  name : String
  arguments_json : String
deriving DecidableEq, Repr

/-- `ToolCall::new` (`src/tool_builder.rs` lines 245-255): serializes the
arguments value to a string (which never fails on a `Value`). -/
def ToolCall.new (sd : Serde) (id : String) (name : String) (arguments : JsonValue) : ToolCall :=
  ⟨id, name, sd.render arguments⟩

/-- `struct ToolResponse` (`src/tool_builder.rs` lines 316-322). -/
structure ToolResponse where
  content : String
  tool_calls : List ToolCall
  usage : Usage
  model : String
  response_id : Option String

/-- `ToolResponse::new_with_opt_usage` (`src/tool_builder.rs` lines
326-349): a missing usage becomes the all-zero `TokenUsage`. -/
def ToolResponse.new_with_opt_usage (content : String) (tool_calls : List ToolCall)
    (usage : Option TokenUsage) (model : String) (response_id : Option String) : ToolResponse :=
  ⟨content, tool_calls, Usage.from_octo (usage.getD zeroTokenUsage), model, response_id⟩

/-- `ToolResponse::get_usage`. -/
def ToolResponse.get_usage (r : ToolResponse) : Usage := r.usage

/-- `ToolResponse::to_array` (`src/tool_builder.rs` lines 378-394):
content, the tool calls pushed as class objects, the usage as a class
object, the model — and `response_id` only when it is `Some`. -/
def ToolResponse.to_array (r : ToolResponse) : List (ArrayKey × PhpVal) :=
  let a := assocInsert [] (ArrayKey.str "content") (PhpVal.str r.content)
  let calls := (r.tool_calls.enum).map fun p =>
    (ArrayKey.long p.1, PhpVal.toolCallObj p.2.id p.2.name p.2.arguments_json)
  let a := assocInsert a (ArrayKey.str "tool_calls") (PhpVal.array (assocInsertMany [] calls))
  let a := assocInsert a (ArrayKey.str "usage")
    (PhpVal.usageObj r.usage.prompt_tokens r.usage.output_tokens r.usage.total_tokens)
  let a := assocInsert a (ArrayKey.str "model") (PhpVal.str r.model)
  match r.response_id with
  | some resp_id => assocInsert a (ArrayKey.str "response_id") (PhpVal.str resp_id)
  | none => a

/-- The JSON value `ToolResponse::to_json` (`src/tool_builder.rs` lines
396-426) renders: five keys, `response_id` as explicit null when absent,
each call's arguments as the stored JSON string. -/
def ToolResponse.to_json_value (r : ToolResponse) : JsonValue :=
  .obj [("content", .str r.content),
    ("tool_calls", .arr (r.tool_calls.map fun c =>
      .obj [("id", .str c.id), ("name", .str c.name), ("arguments", .str c.arguments_json)])),
    ("usage", r.usage.to_json_value),
    ("model", .str r.model),
    ("response_id", optStrJson r.response_id)]

/-- `struct StructuredResponse` (`src/structured_builder.rs` lines
159-164). -/
structure StructuredResponse where
  content : String
  structured : PhpVal
  usage : Usage
  model : String

/-- `StructuredResponse::new` (`src/structured_builder.rs` lines
167-176). -/
def StructuredResponse.new (content : String) (structured : PhpVal) (usage : TokenUsage)
    (model : String) : StructuredResponse :=
  ⟨content, structured, Usage.from_octo usage, model⟩

/-- `StructuredResponse::get_structured` (`src/structured_builder.rs`
lines 184-188): returns a fresh empty `Zval`, ignoring the stored
payload. -/
def StructuredResponse.get_structured (_ : StructuredResponse) : PhpVal :=
  .null

/-- `StructuredResponse::get_usage`. -/
def StructuredResponse.get_usage (r : StructuredResponse) : Usage := r.usage

/-- `struct Tool` (`src/tool_builder.rs` lines 66-70): parameters kept as
a JSON string. -/
structure Tool where
  name : String
  description : String
  parameters : String
deriving DecidableEq, Repr

/-- `Tool::to_octo` (`src/tool_builder.rs` lines 207-221): parse the
stored parameter string; failure is a validation error. -/
def Tool.to_octo (t : Tool) (sd : Serde) : Except PhpErr FunctionDefinition :=
  match sd.parse t.parameters with
  | .error e => .error ⟨.validation, "Invalid parameters JSON: " ++ e⟩
  | .ok v => .ok ⟨t.name, t.description, v, none⟩

/-- `struct LLM` (`src/llm_class.rs` lines 15-23); the shared tokio
runtime handle is not part of the state the completion logic reads. -/
structure LLM where
  model : String
  temperature : FVal
  max_tokens : Int
  top_p : FVal
  frequency_penalty : FVal
  presence_penalty : FVal

/-- `LLM::complete` (`src/llm_class.rs` lines 49-87), with the provider
invocations it performs recorded in order as the second component. -/
def LLM.completeT (sd : Serde) (env : Octo) (l : LLM) (messages : PhpVal) :
    Except PhpErr Response × List CallEv :=
  match phpToMessages sd messages with
  | .error e => (.error e, [])
  | .ok messages_vec =>
    match env.get_provider_for_model l.model with
    | .error e => (.error e.intoPhpException, [.resolve l.model])
    | .ok (provider, model) =>
      let params := ChatParams.new messages_vec model l.temperature l.top_p 50 l.max_tokens
      match provider.chat_completion params with
      | .error e => (.error e.intoPhpException, [.resolve l.model, .chat params])
      | .ok response =>
        let usage := response.exchange_usage.getD zeroTokenUsage
        (.ok (Response.new response.content usage model
          (response.finish_reason.getD "stop")), [.resolve l.model, .chat params])

/-- `struct StructuredBuilder` (`src/structured_builder.rs` lines
14-22). -/
structure StructuredBuilder where
  model : String
  temperature : FVal
  max_tokens : Int
  top_p : FVal
  schema : Option String
  format : String

/-- `StructuredBuilder::new` (`src/structured_builder.rs` lines 26-44):
the format starts as "json". -/
def StructuredBuilder.new (model : String) (temperature : FVal) (max_tokens : Int)
    (top_p : FVal) (schema : Option String) : StructuredBuilder :=
  ⟨model, temperature, max_tokens, top_p, schema, "json"⟩

/-- `StructuredBuilder::with_schema` (`src/structured_builder.rs` lines
121-127). -/
def StructuredBuilder.with_schema (b : StructuredBuilder) (schema : String) :
    StructuredBuilder :=
  { b with schema := some schema }

/-- `StructuredBuilder::with_format` (`src/structured_builder.rs` lines
130-136). -/
def StructuredBuilder.with_format (b : StructuredBuilder) (format : String) :
    StructuredBuilder :=
  { b with format := format }

/-- The structured-output request `StructuredBuilder::complete` builds
(`src/structured_builder.rs` lines 69-79): `json_schema` from the parsed
schema when one is set (an unparsable schema is a structured-output
error), the generic `json` request otherwise. -/
def structuredRequestOf (sd : Serde) (schema : Option String) :
    Except PhpErr StructuredReq :=
  match schema with
  | some s =>
    match sd.parse s with
    | .error e => .error ⟨.structuredOutput, "Invalid JSON schema: " ++ e⟩
    | .ok v => .ok (.jsonSchema v)
  | none => .ok .json

/-- `StructuredBuilder::complete` (`src/structured_builder.rs` lines
49-118), with the provider invocations recorded. -/
def StructuredBuilder.completeT (sd : Serde) (env : Octo) (b : StructuredBuilder)
    (messages : PhpVal) : Except PhpErr StructuredResponse × List CallEv :=
  match phpToMessages sd messages with
  | .error e => (.error e, [])
  | .ok messages_vec =>
    match env.get_provider_for_model b.model with
    | .error e => (.error e.intoPhpException, [.resolve b.model])
    | .ok (provider, model) =>
      if provider.supports_structured_output model = false then
        (.error ⟨.structuredOutput,
          "Structured output not supported by this provider/model"⟩, [.resolve b.model])
      else
        match structuredRequestOf sd b.schema with
        | .error e => (.error e, [.resolve b.model])
        | .ok structured_request =>
          let params := (ChatParams.new messages_vec model b.temperature b.top_p 50
            b.max_tokens).with_structured_output structured_request
          match provider.chat_completion params with
          | .error e => (.error e.intoPhpException, [.resolve b.model, .chat params])
          | .ok response =>
            match response.structured_output with
            | none => (.error ⟨.structuredOutput, "No structured output in response"⟩,
                [.resolve b.model, .chat params])
            | some structured =>
              let structured_php := jsonValueToPhp structured
              (.ok (StructuredResponse.new response.content structured_php
                (response.exchange_usage.getD zeroTokenUsage) model),
                [.resolve b.model, .chat params])

/-- `struct ToolBuilder` (`src/tool_builder.rs` lines 431-439). -/
structure ToolBuilder where
  model : String
  temperature : FVal
  max_tokens : Int
  top_p : FVal
  tools : List Tool
  auto_execute : Bool

/-- `ToolBuilder::complete` (`src/tool_builder.rs` lines 466-511), with
the provider invocations recorded. -/
def ToolBuilder.completeT (sd : Serde) (env : Octo) (b : ToolBuilder)
    (messages : PhpVal) : Except PhpErr ToolResponse × List CallEv :=
  match phpToMessages sd messages with
  | .error e => (.error e, [])
  | .ok messages_vec =>
    match env.get_provider_for_model b.model with
    | .error e => (.error e.intoPhpException, [.resolve b.model])
    | .ok (provider, model) =>
      match b.tools.mapM (fun t => t.to_octo sd) with
      | .error e => (.error e, [.resolve b.model])
      | .ok octo_tools =>
        let params := (ChatParams.new messages_vec model b.temperature b.top_p 50
          b.max_tokens).with_tools octo_tools
        match provider.chat_completion params with
        | .error e => (.error e.intoPhpException, [.resolve b.model, .chat params])
        | .ok response =>
          let tool_calls := match response.tool_calls with
            | some calls => calls.map fun c => ToolCall.new sd c.id c.name c.arguments
            | none => []
          (.ok (ToolResponse.new_with_opt_usage response.content tool_calls
            response.exchange_usage model response.response_id),
            [.resolve b.model, .chat params])

/-- A concrete finite double, used to instantiate sampling parameters in
concrete runs. -/
def fv0 : FVal := ⟨0, true⟩

/-- A recording-friendly concrete serde: it parses exactly the text
"{}" (to the empty object) and renders every value as "{}".  Used only to
instantiate the `Serde` parameter in concrete runs. -/
def stubSerde : Serde :=
  ⟨fun s => if s = "{}" then .ok (.obj []) else .error "invalid", fun _ => "{}"⟩

/-- A concrete provider result with no usage record, a structured
payload, and no tool calls. -/
def stubChatResponse : ChatResponse :=
  ⟨"answer", none, some (.obj [("k", .int 1)]), none, none, none⟩

/-- A stub provider that supports structured output and always returns
`stubChatResponse`. -/
def stubProviderOk : Provider :=
  ⟨fun _ => true, fun _ => .ok stubChatResponse⟩

/-- A stub provider whose `supports_structured_output` is false. -/
def stubProviderNoSupport : Provider :=
  ⟨fun _ => false, fun _ => .ok stubChatResponse⟩

/-- A provider environment resolving every model to `stubProviderOk`,
with the model name itself canonical. -/
def stubEnvOk : Octo := ⟨fun m => .ok (stubProviderOk, m)⟩

/-- A provider environment resolving every model to
`stubProviderNoSupport`. -/
def stubEnvNoSupport : Octo := ⟨fun m => .ok (stubProviderNoSupport, m)⟩

/-- A concrete plain-mode configuration. -/
def stubLLM : LLM := ⟨"m1", fv0, 1000, fv0, fv0, fv0⟩

/-- A concrete structured builder with no schema. -/
def stubStructured : StructuredBuilder := StructuredBuilder.new "m1" fv0 1000 fv0 none

/-- A concrete tool builder with no tools. -/
def stubToolBuilder : ToolBuilder := ⟨"m1", fv0, 1000, fv0, [], false⟩

/-- A concrete message argument: a collection holding one user turn. -/
def stubMsgs : PhpVal := .collObj [Message.user "hi"]

/-- A message list whose single entry is a field map with an invalid
role: it passes `from_array` but fails role dispatch in `to_octo`. -/
def badRoleMsgs : PhpVal :=
  .array [(.long 0, .array [(.str "role", .str "bogus"), (.str "content", .str "x")])]

/-- A field map that has both a `role` and a `content` entry, but the
`role` value is an integer, not a string. -/
def intRoleData : List (ArrayKey × PhpVal) :=
  [(.str "role", .long 5), (.str "content", .str "hi")]

/-- A valid message field map. -/
def okMsgData : List (ArrayKey × PhpVal) :=
  [(.str "role", .str "user"), (.str "content", .str "hi")]

/-- A message field map missing `content`. -/
def noContentData : List (ArrayKey × PhpVal) :=
  [(.str "role", .str "user")]

/-- Whether the field map holds a string value under the given string
key: the success condition of `get(name).and_then(|v| v.str())`. -/
def hasStrFieldB (data : List (ArrayKey × PhpVal)) (name : String) : Bool :=
  ((htGet data (.str name)).bind PhpVal.strVal).isSome

/-- The key list an optional field contributes to a `to_array` result:
its key when present, nothing when null. -/
def optKeyList (o : Option String) (name : String) : List ArrayKey :=
  match o with
  | some _ => [.str name]
  | none => []

/-- Whether one entry of a bulk-construction list does not abort it: a
field map that parses, or a non-array entry (which the loop skips). -/
def entryConstructOk (p : ArrayKey × PhpVal) : Bool :=
  match p.2 with
  | .array a => okB (Message.from_array a)
  | _ => true

/-- A computation succeeds exactly when it is an `ok`. -/
theorem okB_eq_true_iff {ε α : Type} (x : Except ε α) : okB x = true ↔ ∃ v, x = .ok v := by
  cases x <;> simp [okB]

/-- C9: for every `StructuredResponse`, regardless of the structured
payload stored at construction, `get_structured` returns the empty/null
value — it never returns the stored payload. -/
theorem get_structured_always_empty (content : String) (structured : PhpVal)
    (usage : TokenUsage) (model : String) :
    (StructuredResponse.new content structured usage model).get_structured = PhpVal.null := rfl

/-- C5: canonicalizing `Message::tool(id, content)` via `to_octo`
succeeds if and only if `id` is non-empty (octolib's tool builder is
modelled from the spec as rejecting an empty tool_call_id; the
extension's own code passes every `Some` id through). -/
theorem tool_to_canonical_iff (sd : Serde) (id content : String) :
    okB ((Message.tool id content).to_octo sd) = true ↔ id ≠ "" := by
  by_cases h : id = "" <;>
    simp [Message.tool, Message.to_octo, MessageBuilder.buildTool, Message.role,
      Message.tool_call_id, Message.content, okB, h]

/-- C4 (amended): `Message::from_array` succeeds iff the map holds
string-valued `role` and `content` entries; when the `role` lookup fails
(absent or non-string) the error is the ValidationError naming `role`,
and when `role` is a string but the `content` lookup fails the error
names `content`.  Mere presence of the fields is not enough: the values
must be strings. -/
theorem message_from_array_characterization (data : List (ArrayKey × PhpVal)) :
    (okB (Message.from_array data) = (hasStrFieldB data "role" && hasStrFieldB data "content"))
    ∧ (hasStrFieldB data "role" = false →
        Message.from_array data = .error ⟨.validation, "Message must have 'role' field"⟩)
    ∧ (hasStrFieldB data "role" = true → hasStrFieldB data "content" = false →
        Message.from_array data = .error ⟨.validation, "Message must have 'content' field"⟩) := by
  cases hr : (htGet data (ArrayKey.str "role")).bind PhpVal.strVal <;>
  cases hc : (htGet data (ArrayKey.str "content")).bind PhpVal.strVal <;>
    simp [Message.from_array, hasStrFieldB, hr, hc, okB]

/-- C4, counterexample to the claim as stated: a map holding both a
`role` field (an integer) and a `content` field on which `from_array`
nevertheless fails. -/
theorem message_from_array_counterexample :
    (htGet intRoleData (ArrayKey.str "role")).isSome = true ∧
    (htGet intRoleData (ArrayKey.str "content")).isSome = true ∧
    okB (Message.from_array intRoleData) = false ∧
    Message.from_array intRoleData = .error ⟨.validation, "Message must have 'role' field"⟩ := by
  refine ⟨rfl, rfl, rfl, rfl⟩

/-- C8 (amended): in bulk `MessageCollection` construction the first
entry whose field map fails validation aborts the whole construction
with exactly that entry's ValidationError (which names the failed field);
no partial collection is produced.  The error does not carry the entry's
index. -/
theorem bulk_construction_first_error_aborts (pre post : List (ArrayKey × PhpVal))
    (k : ArrayKey) (a : List (ArrayKey × PhpVal)) (e : PhpErr)
    (hpre : ∀ p ∈ pre, entryConstructOk p = true)
    (herr : Message.from_array a = .error e) :
    MessageCollection.construct (some (pre ++ (k, .array a) :: post)) = .error e := by
  induction pre with
  | nil => simp [MessageCollection.construct, collectMessages, herr]
  | cons hd t ih =>
    have hok := hpre hd (by simp)
    have ht : ∀ p ∈ t, entryConstructOk p = true := fun p hp => hpre p (by simp [hp])
    have ih' := ih ht
    obtain ⟨k', v⟩ := hd
    simp only [MessageCollection.construct, List.cons_append] at ih' ⊢
    cases v <;> simp only [collectMessages] <;> try exact ih'
    case array a' =>
      rw [entryConstructOk] at hok
      obtain ⟨m, hm⟩ := (okB_eq_true_iff (Message.from_array a')).mp hok
      simp [hm, ih']

/-- C8, witness: a concrete two-entry batch whose second entry lacks
`content` aborts with the content ValidationError. -/
theorem bulk_construction_first_error_aborts_witness :
    MessageCollection.construct
        (some [(.long 0, .array okMsgData), (.long 1, .array noContentData)]) =
      .error ⟨.validation, "Message must have 'content' field"⟩ :=
  bulk_construction_first_error_aborts [(.long 0, .array okMsgData)] [] (.long 1)
    noContentData _ (by intro p hp; simp at hp; subst hp; rfl) rfl

/-- C8, counterexample to the index part of the claim: a batch failing
at entry index 1 and a batch failing at entry index 0 produce the very
same error value, so the error cannot report the failing entry's
index. -/
theorem bulk_construction_counterexample :
    MessageCollection.construct
        (some [(.long 0, .array okMsgData), (.long 1, .array noContentData)]) =
      MessageCollection.construct (some [(.long 0, .array noContentData)]) ∧
    MessageCollection.construct
        (some [(.long 0, .array okMsgData), (.long 1, .array noContentData)]) =
      .error ⟨.validation, "Message must have 'content' field"⟩ := ⟨rfl, rfl⟩

/-- C7 (amended): the JSON-string form of Message, Response and
ToolResponse always carries the type's fixed key set with null fields
present as explicit null; the field-map form carries the required keys
always but omits each optional field whose value is null. -/
theorem serialization_key_sets :
    (∀ m : Message,
      (Message.to_json_value m).objKeys =
        ["role", "content", "tool_call_id", "id", "tool_calls"] ∧
      htKeys (Message.to_array m) =
        [ArrayKey.str "role", ArrayKey.str "content"] ++ optKeyList m.tool_call_id "tool_call_id"
          ++ optKeyList m.id "id" ++ optKeyList m.tool_calls "tool_calls") ∧
    (∀ r : Response,
      (Response.to_json_value r).objKeys = ["content", "usage", "model", "finish_reason"] ∧
      htKeys (Response.to_array r) =
        [ArrayKey.str "content", ArrayKey.str "usage", ArrayKey.str "model",
          ArrayKey.str "finish_reason"]) ∧
    (∀ tr : ToolResponse,
      (ToolResponse.to_json_value tr).objKeys =
        ["content", "tool_calls", "usage", "model", "response_id"] ∧
      htKeys (ToolResponse.to_array tr) =
        [ArrayKey.str "content", ArrayKey.str "tool_calls", ArrayKey.str "usage",
          ArrayKey.str "model"] ++ optKeyList tr.response_id "response_id") := by
  refine ⟨fun m => ?_, fun r => ⟨rfl, rfl⟩, fun tr => ?_⟩
  · obtain ⟨role, content, tcid, mid, tcalls⟩ := m
    cases tcid <;> cases mid <;> cases tcalls <;> exact ⟨rfl, rfl⟩
  · obtain ⟨c, calls, u, mo, rid⟩ := tr
    cases rid <;> exact ⟨rfl, rfl⟩

/-- C7, counterexample to the claim as stated: `Message::user("hi")`
has a null `tool_call_id`, and its field-map form omits the
`tool_call_id` key entirely, while its JSON form does carry it. -/
theorem serialization_counterexample :
    (Message.user "hi").tool_call_id = none ∧
    htGet (Message.to_array (Message.user "hi")) (ArrayKey.str "tool_call_id") = none ∧
    ((Message.to_json_value (Message.user "hi")).objKeys.contains "tool_call_id") = true :=
  ⟨rfl, rfl, rfl⟩

/-- C3 (amended): when the resolved provider does not support
structured output, `StructuredBuilder::complete` on any message list
that converts successfully fails with the StructuredOutputError and the
recorded call trace stops at provider resolution; and for every message
list whatsoever, `chat_completion` is never invoked in that run. -/
theorem structured_unsupported_fails_fast (sd : Serde) (env : Octo) (b : StructuredBuilder)
    (messages : PhpVal) (p : Provider) (m : String)
    (hres : env.get_provider_for_model b.model = .ok (p, m))
    (hsup : p.supports_structured_output m = false) :
    (okB (phpToMessages sd messages) = true →
      StructuredBuilder.completeT sd env b messages =
        (.error ⟨.structuredOutput, "Structured output not supported by this provider/model"⟩,
          [.resolve b.model])) ∧
    (∀ ps, CallEv.chat ps ∈ (StructuredBuilder.completeT sd env b messages).2 → False) := by
  cases h : phpToMessages sd messages with
  | error e =>
    refine ⟨fun hok => ?_, fun ps hps => ?_⟩
    · simp [okB] at hok
    · simp [StructuredBuilder.completeT, h] at hps
  | ok mv =>
    refine ⟨fun _ => ?_, fun ps hps => ?_⟩
    · simp [StructuredBuilder.completeT, h, hres, hsup]
    · simp [StructuredBuilder.completeT, h, hres, hsup] at hps

/-- C3, witness: a concrete run against a non-supporting stub provider
fails with the StructuredOutputError after resolution only. -/
theorem structured_unsupported_fails_fast_witness :
    StructuredBuilder.completeT stubSerde stubEnvNoSupport stubStructured stubMsgs =
      (.error ⟨.structuredOutput, "Structured output not supported by this provider/model"⟩,
        [.resolve "m1"]) :=
  (structured_unsupported_fails_fast stubSerde stubEnvNoSupport stubStructured stubMsgs
    stubProviderNoSupport "m1" rfl rfl).1 rfl

/-- C3, counterexample to the claim as stated: with the resolved
provider not supporting structured output, a message list whose entry
has an invalid role makes `complete` fail with a ValidationError, not a
StructuredOutputError. -/
theorem structured_unsupported_counterexample :
    stubEnvNoSupport.get_provider_for_model stubStructured.model =
      .ok (stubProviderNoSupport, "m1") ∧
    stubProviderNoSupport.supports_structured_output "m1" = false ∧
    (StructuredBuilder.completeT stubSerde stubEnvNoSupport stubStructured badRoleMsgs).1 =
      .error ⟨.validation, "Invalid message role: bogus"⟩ :=
  ⟨rfl, rfl, rfl⟩

/-- C10: the `format` field set by `with_format` is never read by
`complete` — two builder states differing only in `format` produce
identical results and identical provider-call traces — and every issued
request's structured-output mode depends only on whether a schema is
set: `json_schema` of the parsed schema when present, generic `json`
otherwise. -/
theorem format_never_read (sd : Serde) (env : Octo) (b : StructuredBuilder)
    (messages : PhpVal) (fmt : String) :
    StructuredBuilder.completeT sd env (b.with_format fmt) messages =
      StructuredBuilder.completeT sd env b messages ∧
    (∀ ps, CallEv.chat ps ∈ (StructuredBuilder.completeT sd env b messages).2 →
      (b.schema = none ∧ ps.structured = some StructuredReq.json) ∨
      (∃ sch v, b.schema = some sch ∧ sd.parse sch = .ok v ∧
        ps.structured = some (StructuredReq.jsonSchema v))) := by
  constructor
  · obtain ⟨mo, te, mx, tp, sc, fo⟩ := b
    rfl
  · intro ps hps
    cases h1 : phpToMessages sd messages with
    | error e => simp [StructuredBuilder.completeT, h1] at hps
    | ok mv =>
      cases h2 : env.get_provider_for_model b.model with
      | error e => simp [StructuredBuilder.completeT, h1, h2] at hps
      | ok pm =>
        obtain ⟨p, m⟩ := pm
        cases hsup : p.supports_structured_output m with
        | false => simp [StructuredBuilder.completeT, h1, h2, hsup] at hps
        | true =>
          cases hs : b.schema with
          | none =>
            cases hc : p.chat_completion ((ChatParams.new mv m b.temperature b.top_p 50
                b.max_tokens).with_structured_output StructuredReq.json) with
            | error e =>
              simp [StructuredBuilder.completeT, h1, h2, hsup, hs, structuredRequestOf,
                hc] at hps
              subst hps
              exact Or.inl ⟨rfl, rfl⟩
            | ok cr =>
              rcases hso : cr.structured_output with _ | j <;>
              · simp [StructuredBuilder.completeT, h1, h2, hsup, hs, structuredRequestOf,
                  hc, hso] at hps
                subst hps
                exact Or.inl ⟨rfl, rfl⟩
          | some sch =>
            cases hp : sd.parse sch with
            | error e =>
              simp [StructuredBuilder.completeT, h1, h2, hsup, hs, structuredRequestOf,
                hp] at hps
            | ok v =>
              cases hc : p.chat_completion ((ChatParams.new mv m b.temperature b.top_p 50
                  b.max_tokens).with_structured_output (StructuredReq.jsonSchema v)) with
              | error e =>
                simp [StructuredBuilder.completeT, h1, h2, hsup, hs, structuredRequestOf,
                  hp, hc] at hps
                subst hps
                exact Or.inr ⟨sch, v, rfl, hp, rfl⟩
              | ok cr =>
                rcases hso : cr.structured_output with _ | j <;>
                · simp [StructuredBuilder.completeT, h1, h2, hsup, hs, structuredRequestOf,
                    hp, hc, hso] at hps
                  subst hps
                  exact Or.inr ⟨sch, v, rfl, hp, rfl⟩

/-- C6: in all three completion modes (plain, structured,
tool-enabled), when the provider's result carries no usage record the
returned response's usage is the explicit all-zero snapshot
{prompt_tokens 0, output_tokens 0, total_tokens 0}. -/
theorem usage_defaults_to_zero (sd : Serde) (env : Octo) (p : Provider) (mname : String)
    (cr : ChatResponse) (messages : PhpVal) (mv : List OctoMessage)
    (hm : phpToMessages sd messages = .ok mv)
    (hu : cr.exchange_usage = none)
    (hc : ∀ ps, p.chat_completion ps = .ok cr) :
    (∀ l : LLM, env.get_provider_for_model l.model = .ok (p, mname) →
      ∃ r, (LLM.completeT sd env l messages).1 = .ok r ∧ r.get_usage = ⟨0, 0, 0⟩) ∧
    (∀ b : StructuredBuilder, env.get_provider_for_model b.model = .ok (p, mname) →
      p.supports_structured_output mname = true →
      okB (structuredRequestOf sd b.schema) = true →
      cr.structured_output ≠ none →
      ∃ r, (StructuredBuilder.completeT sd env b messages).1 = .ok r ∧
        r.get_usage = ⟨0, 0, 0⟩) ∧
    (∀ tb : ToolBuilder, env.get_provider_for_model tb.model = .ok (p, mname) →
      okB (tb.tools.mapM (fun t => t.to_octo sd)) = true →
      ∃ r, (ToolBuilder.completeT sd env tb messages).1 = .ok r ∧
        r.get_usage = ⟨0, 0, 0⟩) := by
  refine ⟨fun l hres => ?_, fun b hres hsup hreq hso => ?_, fun tb hres htl => ?_⟩
  · refine ⟨Response.new cr.content (cr.exchange_usage.getD zeroTokenUsage) mname
      (cr.finish_reason.getD "stop"), ?_, ?_⟩
    · simp [LLM.completeT, hm, hres, hc]
    · simp [Response.get_usage, Response.new, hu, Usage.from_octo, zeroTokenUsage]
  · obtain ⟨sreq, hsreq⟩ := (okB_eq_true_iff _).mp hreq
    rcases hj : cr.structured_output with _ | j
    · exact absurd hj hso
    · refine ⟨StructuredResponse.new cr.content (jsonValueToPhp j)
        (cr.exchange_usage.getD zeroTokenUsage) mname, ?_, ?_⟩
      · simp [StructuredBuilder.completeT, hm, hres, hsup, hsreq, hc, hj]
      · simp [StructuredResponse.get_usage, StructuredResponse.new, hu, Usage.from_octo,
          zeroTokenUsage]
  · obtain ⟨ts, hts⟩ := (okB_eq_true_iff _).mp htl
    simp only [List.mapM] at hts
    refine ⟨ToolResponse.new_with_opt_usage cr.content
      (match cr.tool_calls with
        | some calls => calls.map fun c => ToolCall.new sd c.id c.name c.arguments
        | none => []) cr.exchange_usage mname cr.response_id, ?_, ?_⟩
    · simp [ToolBuilder.completeT, hm, hres, hts, hc]
    · simp [ToolResponse.get_usage, ToolResponse.new_with_opt_usage, hu, Usage.from_octo,
        zeroTokenUsage]

/-- C6, witness: concrete runs of all three modes against a stub
provider omitting usage all return the zero usage snapshot. -/
theorem usage_defaults_to_zero_witness :
    (∃ r, (LLM.completeT stubSerde stubEnvOk stubLLM stubMsgs).1 = .ok r ∧
      r.get_usage = ⟨0, 0, 0⟩) ∧
    (∃ r, (StructuredBuilder.completeT stubSerde stubEnvOk stubStructured stubMsgs).1 =
      .ok r ∧ r.get_usage = ⟨0, 0, 0⟩) ∧
    (∃ r, (ToolBuilder.completeT stubSerde stubEnvOk stubToolBuilder stubMsgs).1 = .ok r ∧
      r.get_usage = ⟨0, 0, 0⟩) := by
  have h := usage_defaults_to_zero stubSerde stubEnvOk stubProviderOk "m1" stubChatResponse
    stubMsgs [⟨.user, "hi", none, none, "", none⟩] rfl rfl (fun ps => rfl)
  exact ⟨h.1 stubLLM rfl, h.2.1 stubStructured rfl rfl rfl (by simp [stubChatResponse]),
    h.2.2 stubToolBuilder rfl rfl⟩

/-- Inserting into a hash table never yields an empty table. -/
theorem assocInsert_ne_nil {κ α : Type} [DecidableEq κ] (acc : List (κ × α)) (k : κ) (v : α) :
    assocInsert acc k v ≠ [] := by
  cases acc with
  | nil => simp [assocInsert]
  | cons hd t =>
    obtain ⟨k', v'⟩ := hd
    by_cases h : k' = k <;> simp [assocInsert, h]

/-- Folded insertion keeps a non-empty table non-empty. -/
theorem assocInsertMany_ne_nil {κ α : Type} [DecidableEq κ] (acc items : List (κ × α))
    (h : acc ≠ []) : assocInsertMany acc items ≠ [] := by
  induction items generalizing acc with
  | nil => simpa [assocInsertMany]
  | cons hd t ih =>
    simp only [assocInsertMany, List.foldl_cons] at ih ⊢
    exact ih _ (assocInsert_ne_nil acc hd.1 hd.2)

/-- A key predicate holding on a table and on the inserted key holds
on the table after insertion. -/
theorem allKeys_assocInsert {κ α : Type} [DecidableEq κ] (q : κ → Bool)
    (acc : List (κ × α)) (k : κ) (v : α)
    (ha : ∀ p ∈ acc, q p.1 = true) (hk : q k = true) :
    ∀ p ∈ assocInsert acc k v, q p.1 = true := by
  induction acc with
  | nil => simpa [assocInsert]
  | cons hd t ih =>
    obtain ⟨k', v'⟩ := hd
    by_cases h : k' = k
    · simp only [assocInsert, if_pos h]
      intro p hp
      rcases List.mem_cons.mp hp with h1 | h1
      · subst h1; exact hk
      · exact ha p (List.mem_cons_of_mem _ h1)
    · simp only [assocInsert, if_neg h]
      intro p hp
      rcases List.mem_cons.mp hp with h1 | h1
      · subst h1; exact ha _ (List.mem_cons_self _ _)
      · exact ih (fun p hp => ha p (List.mem_cons_of_mem _ hp)) p h1

/-- A key predicate holding on a table and on all inserted pairs holds
after folded insertion. -/
theorem allKeys_assocInsertMany {κ α : Type} [DecidableEq κ] (q : κ → Bool)
    (acc items : List (κ × α))
    (ha : ∀ p ∈ acc, q p.1 = true) (hi : ∀ p ∈ items, q p.1 = true) :
    ∀ p ∈ assocInsertMany acc items, q p.1 = true := by
  induction items generalizing acc with
  | nil => simp only [assocInsertMany, List.foldl_nil]; exact ha
  | cons hd t ih =>
    simp only [assocInsertMany, List.foldl_cons] at ih ⊢
    exact ih _
      (allKeys_assocInsert q acc hd.1 hd.2 ha (hi hd (List.mem_cons_self _ _)))
      (fun p hp => hi p (List.mem_cons_of_mem _ hp))

/-- C2 (amended): on the host-to-generic path a container is encoded
as a JSON object exactly when some key is a string-typed key — the
sequentiality of integer keys plays no role; on the generic-to-host path
a non-empty object decodes to a container the same classifier maps back
to an object, and an array decodes to a container it maps back to an
array. -/
theorem container_classification :
    (∀ entries, (zvalToJsonValue (.array entries)).isObj = hasStringKey entries) ∧
    (∀ kvs, kvs ≠ [] → (zvalToJsonValue (jsonValueToPhp (.obj kvs))).isObj = true) ∧
    (∀ xs, (zvalToJsonValue (jsonValueToPhp (.arr xs))).isObj = false) := by
  have hclass : ∀ entries, (zvalToJsonValue (.array entries)).isObj = hasStringKey entries := by
    intro entries
    cases h : hasStringKey entries <;> simp [zvalToJsonValue, h, JsonValue.isObj]
  refine ⟨hclass, fun kvs hne => ?_, fun xs => ?_⟩
  · rw [show jsonValueToPhp (.obj kvs) = .array (assocInsertMany []
      ((jsonPairsToPhp kvs).map fun p => (ArrayKey.str p.1, p.2))) from by
        simp [jsonValueToPhp]]
    rw [hclass]
    have hitems : ∀ p ∈ (jsonPairsToPhp kvs).map fun p => ((ArrayKey.str p.1 : ArrayKey), p.2),
        p.1.isStr = true := by
      intro p hp
      obtain ⟨q, _, hq⟩ := List.mem_map.mp hp
      rw [← hq]
      rfl
    have hall := allKeys_assocInsertMany (fun k => k.isStr) []
      ((jsonPairsToPhp kvs).map fun p => (ArrayKey.str p.1, p.2)) (by simp) hitems
    have hne2 : assocInsertMany []
        ((jsonPairsToPhp kvs).map fun p => ((ArrayKey.str p.1 : ArrayKey), p.2)) ≠ [] := by
      cases kvs with
      | nil => exact absurd rfl hne
      | cons hd t =>
        obtain ⟨k, v⟩ := hd
        simp only [jsonPairsToPhp, List.map_cons, assocInsertMany, List.foldl_cons]
        exact fun hx => assocInsertMany_ne_nil _ _ (by simp [assocInsert]) hx
    rcases hx : assocInsertMany []
        ((jsonPairsToPhp kvs).map fun p => ((ArrayKey.str p.1 : ArrayKey), p.2)) with _ | ⟨hd, t⟩
    · exact absurd hx hne2
    · have := hall hd (by rw [hx]; exact List.mem_cons_self _ _)
      rw [hx]
      simp only [hasStringKey, List.any_cons, Bool.or_eq_true]
      exact Or.inl this
  · rw [show jsonValueToPhp (.arr xs) = .array (assocInsertMany []
      (((jsonListToPhp xs).enum).map fun p => (ArrayKey.long p.1, p.2))) from by
        simp [jsonValueToPhp]]
    rw [hclass]
    have hitems : ∀ p ∈ ((jsonListToPhp xs).enum).map
        fun p => ((ArrayKey.long p.1 : ArrayKey), p.2), p.1.isStr = false := by
      intro p hp
      obtain ⟨q, _, hq⟩ := List.mem_map.mp hp
      rw [← hq]
      rfl
    have hall := allKeys_assocInsertMany (fun k => !k.isStr) []
      (((jsonListToPhp xs).enum).map fun p => (ArrayKey.long p.1, p.2)) (by simp)
      (by intro p hp; simp [hitems p hp])
    cases h : hasStringKey (assocInsertMany []
        (((jsonListToPhp xs).enum).map fun p => (ArrayKey.long p.1, p.2))) with
    | false => rfl
    | true =>
      exfalso
      simp only [hasStringKey, List.any_eq_true] at h
      obtain ⟨p, hp, hps⟩ := h
      have := hall p hp
      simp [hps] at this

/-- C2, counterexample to the claim as stated: the container with the
single integer key 1 has a non-sequential key, so the spec's rule
classifies it as an object, yet the code encodes it as a JSON array
(discarding the index). -/
theorem container_classification_counterexample :
    specContainerIsObject [(.long 1, .str "x")] = true ∧
    zvalToJsonValue (.array [(.long 1, .str "x")]) = .arr [.str "x"] ∧
    (zvalToJsonValue (.array [(.long 1, .str "x")])).isObj = false := by
  refine ⟨by decide, ?_, ?_⟩ <;>
    simp [zvalToJsonValue, zvalPairsToJson, hasStringKey, ArrayKey.isStr, JsonValue.isObj]

/-- Inserting a fresh key appends the pair. -/
theorem assocInsert_of_forall_ne {κ α : Type} [DecidableEq κ] (acc : List (κ × α))
    (k : κ) (v : α) (h : ∀ p ∈ acc, p.1 ≠ k) : assocInsert acc k v = acc ++ [(k, v)] := by
  induction acc with
  | nil => rfl
  | cons hd t ih =>
    obtain ⟨k', v'⟩ := hd
    have hne : k' ≠ k := h (k', v') (List.mem_cons_self _ _)
    simp only [assocInsert, if_neg hne, List.cons_append, List.cons.injEq, true_and]
    exact ih (fun p hp => h p (List.mem_cons_of_mem _ hp))

/-- Folded insertion of pairs with pairwise-distinct keys, all fresh
for the accumulator, is plain concatenation. -/
theorem assocInsertMany_eq_append {κ α : Type} [DecidableEq κ] (items acc : List (κ × α))
    (hdisj : ∀ p ∈ items, ∀ q ∈ acc, q.1 ≠ p.1)
    (hnodup : (items.map Prod.fst).Nodup) : assocInsertMany acc items = acc ++ items := by
  induction items generalizing acc with
  | nil => simp [assocInsertMany]
  | cons hd t ih =>
    obtain ⟨k, v⟩ := hd
    simp only [List.map_cons, List.nodup_cons, List.mem_map] at hnodup
    simp only [assocInsertMany, List.foldl_cons]
    rw [show assocInsert acc k v = acc ++ [(k, v)] from
      assocInsert_of_forall_ne acc k v
        (fun p hp => hdisj (k, v) (List.mem_cons_self _ _) p hp)]
    have : List.foldl (fun acc p => assocInsert acc p.1 p.2) (acc ++ [(k, v)]) t =
        (acc ++ [(k, v)]) ++ t := by
      have hd2 : ∀ p ∈ t, ∀ q ∈ acc ++ [(k, v)], q.1 ≠ p.1 := by
        intro p hp q hq
        rcases List.mem_append.mp hq with h1 | h1
        · exact hdisj p (List.mem_cons_of_mem _ hp) q h1
        · simp only [List.mem_singleton] at h1
          subst h1
          intro hkp
          exact hnodup.1 ⟨p, hp, hkp.symm⟩
      exact ih (acc ++ [(k, v)]) hd2 hnodup.2
    rw [this]
    simp

/-- Folded insertion into the empty table of pairs with
pairwise-distinct keys is the identity. -/
theorem assocInsertMany_nil_of_nodup {κ α : Type} [DecidableEq κ] (items : List (κ × α))
    (hnodup : (items.map Prod.fst).Nodup) : assocInsertMany [] items = items := by
  have := assocInsertMany_eq_append items [] (by simp) hnodup
  simpa using this

/-- The array recursion of `json_value_to_php` is an elementwise map. -/
theorem jsonListToPhp_eq_map (xs : List JsonValue) :
    jsonListToPhp xs = xs.map jsonValueToPhp := by
  induction xs with
  | nil => simp [jsonListToPhp]
  | cons x t ih => simp [jsonListToPhp, ih]

/-- The object recursion of `json_value_to_php` is a memberwise map. -/
theorem jsonPairsToPhp_eq_map (kvs : List (String × JsonValue)) :
    jsonPairsToPhp kvs = kvs.map fun p => (p.1, jsonValueToPhp p.2) := by
  induction kvs with
  | nil => simp [jsonPairsToPhp]
  | cons p t ih => obtain ⟨k, v⟩ := p; simp [jsonPairsToPhp, ih]

/-- The entry recursion of `zval_to_json_value` is an entrywise map. -/
theorem zvalPairsToJson_eq_map (l : List (ArrayKey × PhpVal)) :
    zvalPairsToJson l = l.map fun p => (p.1, zvalToJsonValue p.2) := by
  induction l with
  | nil => simp [zvalPairsToJson]
  | cons p t ih => obtain ⟨k, v⟩ := p; simp [zvalPairsToJson, ih]

/-- `safeListB` holds memberwise. -/
theorem safeListB_mem (xs : List JsonValue) (h : JsonValue.safeListB xs = true) :
    ∀ x ∈ xs, JsonValue.safeB x = true := by
  induction xs with
  | nil => simp
  | cons y t ih =>
    rw [JsonValue.safeListB, Bool.and_eq_true] at h
    intro x hx
    rcases List.mem_cons.mp hx with h1 | h1
    · rw [h1]; exact h.1
    · exact ih h.2 x h1

/-- `safePairsB` holds memberwise. -/
theorem safePairsB_mem (kvs : List (String × JsonValue))
    (h : JsonValue.safePairsB kvs = true) : ∀ p ∈ kvs, JsonValue.safeB p.2 = true := by
  induction kvs with
  | nil => simp
  | cons q t ih =>
    rw [JsonValue.safePairsB, Bool.and_eq_true] at h
    intro p hp
    rcases List.mem_cons.mp hp with h1 | h1
    · rw [h1]; exact h.1
    · exact ih h.2 p h1

/-- `objsNonemptyListB` holds memberwise. -/
theorem objsNonemptyListB_mem (xs : List JsonValue)
    (h : JsonValue.objsNonemptyListB xs = true) :
    ∀ x ∈ xs, JsonValue.objsNonemptyB x = true := by
  induction xs with
  | nil => simp
  | cons y t ih =>
    rw [JsonValue.objsNonemptyListB, Bool.and_eq_true] at h
    intro x hx
    rcases List.mem_cons.mp hx with h1 | h1
    · rw [h1]; exact h.1
    · exact ih h.2 x h1

/-- `objsNonemptyPairsB` holds memberwise. -/
theorem objsNonemptyPairsB_mem (kvs : List (String × JsonValue))
    (h : JsonValue.objsNonemptyPairsB kvs = true) :
    ∀ p ∈ kvs, JsonValue.objsNonemptyB p.2 = true := by
  induction kvs with
  | nil => simp
  | cons q t ih =>
    rw [JsonValue.objsNonemptyPairsB, Bool.and_eq_true] at h
    intro p hp
    rcases List.mem_cons.mp hp with h1 | h1
    · rw [h1]; exact h.1
    · exact ih h.2 p h1

/-- The executable key-distinctness check implies `Nodup` of the keys. -/
theorem nodupKeysB_nodup {α : Type} (l : List (String × α)) (h : nodupKeysB l = true) :
    (l.map Prod.fst).Nodup := by
  induction l with
  | nil => simp
  | cons p t ih =>
    rw [nodupKeysB, Bool.and_eq_true] at h
    simp only [List.map_cons, List.nodup_cons]
    refine ⟨?_, ih h.2⟩
    intro hmem
    have := h.1
    rw [Bool.not_eq_eq_eq_not, Bool.not_true] at this
    rw [← Bool.not_eq_true, List.elem_iff] at this
    exact this hmem

/-- Structural induction over `JsonValue` with memberwise hypotheses
for arrays and objects, by strong induction on size. -/
theorem JsonValue.strongRec (P : JsonValue → Prop)
    (h0 : P .null) (hb : ∀ b, P (.bool b)) (hi : ∀ i, P (.int i))
    (hf : ∀ f, P (.float f)) (hs : ∀ s, P (.str s))
    (ha : ∀ xs, (∀ x ∈ xs, P x) → P (.arr xs))
    (ho : ∀ kvs, (∀ p ∈ kvs, P p.2) → P (.obj kvs)) (v : JsonValue) : P v := by
  have key : ∀ n (v : JsonValue), sizeOf v ≤ n → P v := by
    intro n
    induction n with
    | zero => intro v hv; cases v <;> simp at hv
    | succ n ih =>
      intro v hv
      cases v with
      | null => exact h0
      | bool b => exact hb b
      | int i => exact hi i
      | float f => exact hf f
      | str s => exact hs s
      | arr xs =>
        refine ha xs fun x hx => ih x ?_
        have h1 := List.sizeOf_lt_of_mem hx
        have h2 : sizeOf (JsonValue.arr xs) = 1 + sizeOf xs := by simp
        omega
      | obj kvs =>
        refine ho kvs fun p hp => ih p.2 ?_
        have h1 := List.sizeOf_lt_of_mem hp
        have h2 : sizeOf p = 1 + sizeOf p.1 + sizeOf p.2 := by
          obtain ⟨a, b⟩ := p; simp
        have h3 : sizeOf (JsonValue.obj kvs) = 1 + sizeOf kvs := by simp
        omega
  exact key (sizeOf v) v le_rfl

/-- A table of integer-keyed entries has no string key. -/
theorem hasStringKey_long_keys (l : List (Nat × PhpVal)) :
    hasStringKey (l.map fun p => (ArrayKey.long p.1, p.2)) = false := by
  induction l with
  | nil => rfl
  | cons p t ih => simpa [hasStringKey, ArrayKey.isStr] using ih

/-- A non-empty table of string-keyed entries has a string key. -/
theorem hasStringKey_str_keys (l : List (String × PhpVal)) (h : l ≠ []) :
    hasStringKey (l.map fun p => (ArrayKey.str p.1, p.2)) = true := by
  cases l with
  | nil => exact absurd rfl h
  | cons p t => simp [hasStringKey, ArrayKey.isStr]

/-- Projecting the converted values out of the entry conversion. -/
theorem mapSnd_zvalPairs (entries : List (ArrayKey × PhpVal)) :
    (zvalPairsToJson entries).map Prod.snd = entries.map fun p => zvalToJsonValue p.2 := by
  rw [zvalPairsToJson_eq_map, List.map_map]
  rfl

/-- The object branch's key-stringification over the entry conversion. -/
theorem mapAsString_zvalPairs (entries : List (ArrayKey × PhpVal)) :
    (zvalPairsToJson entries).map (fun p => (p.1.asString, p.2)) =
      entries.map fun p => (p.1.asString, zvalToJsonValue p.2) := by
  rw [zvalPairsToJson_eq_map, List.map_map]
  rfl

/-- The enumerated index keys of a decoded array are pairwise distinct. -/
theorem arrEntriesNodup (l : List PhpVal) :
    ((l.enum.map fun p => (ArrayKey.long p.1, p.2)).map Prod.fst).Nodup := by
  rw [List.map_map]
  rw [show (Prod.fst ∘ fun p : Nat × PhpVal => ((ArrayKey.long p.1 : ArrayKey), p.2)) =
    ((fun i : Nat => (ArrayKey.long i : ArrayKey)) ∘ Prod.fst) from rfl]
  rw [← List.map_map]
  refine List.Nodup.map ?_ (List.nodup_enum_map_fst l)
  intro a b hab
  simpa using hab

/-- Mapping over the values of enumerated index-keyed entries. -/
theorem arrEntriesSnd (l : List PhpVal) (f : PhpVal → JsonValue) :
    ((l.enum.map fun p => (ArrayKey.long p.1, p.2)).map fun p => f p.2) = l.map f := by
  rw [List.map_map]
  rw [show ((fun p : ArrayKey × PhpVal => f p.2) ∘
    (fun p : Nat × PhpVal => ((ArrayKey.long p.1 : ArrayKey), p.2))) =
    (f ∘ Prod.snd) from rfl]
  rw [← List.map_map]
  simp

/-- C1 (amended): for every DynamicValue whose integers are in the
i64 range, whose floats are finite, whose object nodes have
pairwise-distinct keys, and whose object nodes are all non-empty,
decoding to a PHP value and re-encoding yields the value back:
`zval_to_json_value (json_value_to_php v) = v`. -/
theorem dynamic_roundtrip (v : JsonValue) (hsafe : v.safeB = true)
    (hobj : v.objsNonemptyB = true) : zvalToJsonValue (jsonValueToPhp v) = v := by
  revert hsafe hobj
  induction v using JsonValue.strongRec with
  | h0 => intro _ _; simp [jsonValueToPhp, zvalToJsonValue]
  | hb b => intro _ _; simp [jsonValueToPhp, zvalToJsonValue]
  | hi i =>
    intro hsafe _
    rw [JsonValue.safeB, decide_eq_true_eq] at hsafe
    simp [jsonValueToPhp, zvalToJsonValue, hsafe]
  | hf f =>
    intro hsafe _
    rw [JsonValue.safeB] at hsafe
    simp [jsonValueToPhp, zvalToJsonValue, hsafe]
  | hs s => intro _ _; simp [jsonValueToPhp, zvalToJsonValue]
  | ha xs ih =>
    intro hsafe hobj
    rw [JsonValue.safeB] at hsafe
    rw [JsonValue.objsNonemptyB] at hobj
    have hmem := safeListB_mem xs hsafe
    have hmem2 := objsNonemptyListB_mem xs hobj
    rw [show jsonValueToPhp (.arr xs) = .array (assocInsertMany []
      (((jsonListToPhp xs).enum).map fun p => (ArrayKey.long p.1, p.2))) from by
        simp [jsonValueToPhp]]
    rw [assocInsertMany_nil_of_nodup _ (arrEntriesNodup (jsonListToPhp xs))]
    rw [show zvalToJsonValue (.array (((jsonListToPhp xs).enum).map
        fun p => (ArrayKey.long p.1, p.2))) = .arr ((zvalPairsToJson
          (((jsonListToPhp xs).enum).map fun p => (ArrayKey.long p.1, p.2))).map Prod.snd)
      from by
        simp [zvalToJsonValue, hasStringKey_long_keys]]
    rw [mapSnd_zvalPairs, arrEntriesSnd, jsonListToPhp_eq_map, List.map_map]
    rw [show (zvalToJsonValue ∘ jsonValueToPhp) =
      (fun x => zvalToJsonValue (jsonValueToPhp x)) from rfl]
    rw [List.map_congr_left (fun x hx => ih x hx (hmem x hx) (hmem2 x hx))]
    simp
  | ho kvs ih =>
    intro hsafe hobj
    rw [JsonValue.safeB, Bool.and_eq_true] at hsafe
    rw [JsonValue.objsNonemptyB, Bool.and_eq_true] at hobj
    have hkeys : (kvs.map Prod.fst).Nodup := nodupKeysB_nodup kvs hsafe.1
    have hne : kvs ≠ [] := by
      intro hx
      rw [hx] at hobj
      simp [List.isEmpty] at hobj
    have hmem := safePairsB_mem kvs hsafe.2
    have hmem2 := objsNonemptyPairsB_mem kvs hobj.2
    have hitems : (jsonPairsToPhp kvs).map (fun p => ((ArrayKey.str p.1 : ArrayKey), p.2)) =
        kvs.map fun p => ((ArrayKey.str p.1 : ArrayKey), jsonValueToPhp p.2) := by
      rw [jsonPairsToPhp_eq_map, List.map_map]
      rfl
    have hnodup : ((kvs.map fun p => ((ArrayKey.str p.1 : ArrayKey),
        jsonValueToPhp p.2)).map Prod.fst).Nodup := by
      rw [List.map_map]
      rw [show (Prod.fst ∘ fun p : String × JsonValue => ((ArrayKey.str p.1 : ArrayKey),
        jsonValueToPhp p.2)) = ((fun s : String => (ArrayKey.str s : ArrayKey)) ∘
          Prod.fst) from rfl]
      rw [← List.map_map]
      refine List.Nodup.map ?_ hkeys
      intro a b hab
      simpa using hab
    have hhsk : hasStringKey (kvs.map fun p => ((ArrayKey.str p.1 : ArrayKey),
        jsonValueToPhp p.2)) = true := by
      cases kvs with
      | nil => exact absurd rfl hne
      | cons q t => simp [hasStringKey, ArrayKey.isStr]
    rw [show jsonValueToPhp (.obj kvs) = .array (assocInsertMany []
      ((jsonPairsToPhp kvs).map fun p => (ArrayKey.str p.1, p.2))) from by
        simp [jsonValueToPhp]]
    rw [hitems, assocInsertMany_nil_of_nodup _ hnodup]
    rw [show zvalToJsonValue (.array (kvs.map fun p => ((ArrayKey.str p.1 : ArrayKey),
        jsonValueToPhp p.2))) = .obj (assocInsertMany []
          ((zvalPairsToJson (kvs.map fun p => ((ArrayKey.str p.1 : ArrayKey),
            jsonValueToPhp p.2))).map fun p => (p.1.asString, p.2))) from by
        simp [zvalToJsonValue, hhsk]]
    rw [mapAsString_zvalPairs, List.map_map]
    rw [show ((fun p : ArrayKey × PhpVal => (p.1.asString, zvalToJsonValue p.2)) ∘
        (fun p : String × JsonValue => ((ArrayKey.str p.1 : ArrayKey),
          jsonValueToPhp p.2))) =
      (fun p : String × JsonValue => (p.1, zvalToJsonValue (jsonValueToPhp p.2))) from by
        funext p
        simp [ArrayKey.asString]]
    rw [List.map_congr_left (fun p hp => show
        (p.1, zvalToJsonValue (jsonValueToPhp p.2)) = id p from by
      rw [ih p hp (hmem p hp) (hmem2 p hp)]
      rfl), show kvs.map id = kvs from List.map_id kvs]
    congr 1
    exact assocInsertMany_nil_of_nodup kvs hkeys

/-- C1, witness: a concrete nested value with an object, an array, an
integer, a boolean, a null and a float round-trips to itself. -/
theorem dynamic_roundtrip_witness :
    zvalToJsonValue (jsonValueToPhp (JsonValue.obj
      [("a", .int 3), ("b", .arr [.bool true, .null]), ("c", .float ⟨1, true⟩)])) =
    JsonValue.obj [("a", .int 3), ("b", .arr [.bool true, .null]), ("c", .float ⟨1, true⟩)] :=
  dynamic_roundtrip _
    (by simp [JsonValue.safeB, JsonValue.safePairsB, JsonValue.safeListB, nodupKeysB,
      i64Min, i64Max])
    (by simp [JsonValue.objsNonemptyB, JsonValue.objsNonemptyPairsB,
      JsonValue.objsNonemptyListB])

/-- C1, counterexample to the claim as stated: the empty object is
finite, non-cyclic and integer-range-safe, yet it round-trips to the
empty array, not to itself. -/
theorem dynamic_roundtrip_counterexample :
    (JsonValue.obj []).safeB = true ∧
    zvalToJsonValue (jsonValueToPhp (JsonValue.obj [])) = JsonValue.arr [] ∧
    JsonValue.arr [] ≠ JsonValue.obj [] := by
  refine ⟨by simp [JsonValue.safeB, JsonValue.safePairsB, nodupKeysB], ?_, ?_⟩
  · simp [jsonValueToPhp, jsonPairsToPhp, assocInsertMany, zvalToJsonValue, hasStringKey,
      zvalPairsToJson]
  · intro h
    exact JsonValue.noConfusion h
